import Mathlib

/-!
Shallow embedding of the temporal-statistics engine of the
`oscars-rsotc-backend` repository, together with proofs checking the
natural-language specification against the code.

Conventions used throughout:
* timestamps are calendar dates `(year, month, day)` compared
  lexicographically; the time coordinate of a series is a list of dates
  (sorted, per the data-model invariant of the spec);
* IEEE-754 values are modelled as `ℚ`; a NaN / missing value is modelled
  as `none` of `Option ℚ` where the code's behaviour depends on it;
* `xarray`'s `sel(time=slice(a, b))` on a sorted (monotonic increasing)
  time index keeps the contiguous block of timestamps `a ≤ t ≤ b`
  (pandas `slice_locs` / `searchsorted` semantics), embedded below as
  `selSlice` (a `dropWhile` followed by a `takeWhile`);
* Python dicts with string keys are association lists with distinct keys.
-/

namespace RSOTC

/-- A calendar date: year (may be any integer), month and day. -/
structure Date where
  year : Int
  month : Nat
  day : Nat
deriving DecidableEq, Repr

/-- Lexicographic order on dates, the order of the time coordinate. -/
def Date.le (a b : Date) : Prop :=
  a.year < b.year ∨
    (a.year = b.year ∧
      (a.month < b.month ∨ (a.month = b.month ∧ a.day ≤ b.day)))

/-- Strict lexicographic order on dates. -/
def Date.lt (a b : Date) : Prop :=
  a.year < b.year ∨
    (a.year = b.year ∧
      (a.month < b.month ∨ (a.month = b.month ∧ a.day < b.day)))

instance : DecidableRel Date.le := by
  unfold Date.le; infer_instance

instance : DecidableRel Date.lt := by
  unfold Date.lt; infer_instance

/-- Gregorian leap-year rule, as used by Python's `calendar.monthrange`. -/
def isLeap (y : Int) : Bool :=
  (y % 4 == 0 && y % 100 != 0) || y % 400 == 0

/-- Number of days of month `m` of year `y`
(the second component of Python's `calendar.monthrange(y, m)`). -/
def daysInMonth (y : Int) (m : Nat) : Nat :=
  if m = 2 then (if isLeap y then 29 else 28)
  else if m = 4 ∨ m = 6 ∨ m = 9 ∨ m = 11 then 30
  else 31

/-- A well-formed calendar date (what a real datetime index contains). -/
def Date.valid (d : Date) : Prop :=
  1 ≤ d.month ∧ d.month ≤ 12 ∧ 1 ≤ d.day ∧ d.day ≤ 31

instance (d : Date) : Decidable d.valid := by
  unfold Date.valid; infer_instance

/-- `xarray` `sel(time=slice(lo, hi))` on a time-sorted list: drop the
leading block strictly before `lo`, keep the following block up to `hi`.
`key` extracts the timestamp of a row. -/
def selSlice {α : Type} (key : α → Date) (l : List α) (lo hi : Date) :
    List α :=
  (l.dropWhile (fun x => decide (Date.lt (key x) lo))).takeWhile
    (fun x => decide (Date.le (key x) hi))

/-- The list of calendar years `sy, sy+1, …, ey`
(Python `range(int(start), int(end) + 1)`). -/
def yearsFrom (sy ey : Int) : List Int :=
  (List.range (ey + 1 - sy).toNat).map (fun (i : Nat) => sy + (i : Int))

/-- Embedding of `TemporalFiltering.sel_time_filter`
(`src/app/utils/time_filtering.py`, lines 63–105): for each year of the
resolved period take the season slice — `[y-sm-01 .. y-em-lastDay]` for a
non-wrapping season, `[(y-1)-sm-01 .. y-em-lastDay]` for a wrapping one
(`monthrange(year, end_month)` is evaluated at the loop year `y`) — and
concatenate the slices in ascending year order.  The period bounds are
taken already resolved (for `"all"` the caller passes the first and last
year present in the series). -/
def sel_time_filter (dates : List Date) (sy ey : Int) (sm em : Nat) :
    List Date :=
  (yearsFrom sy ey).flatMap (fun y =>
    if sm ≤ em then
      selSlice id dates ⟨y, sm, 1⟩ ⟨y, em, daysInMonth y em⟩
    else
      selSlice id dates ⟨y - 1, sm, 1⟩ ⟨y, em, daysInMonth y em⟩)

/-- The fixed season table of `src/app/utils/time_filtering_indices.py`
(`SEASON_TO_TIME_FILTER`), in source order. -/
def SEASON_TO_TIME_FILTER : List (String × String) :=
  [("01-12", "Annual"),
   ("01-01", "Jan"),
   ("02-02", "Feb"),
   ("03-03", "Mar"),
   ("04-04", "Apr"),
   ("05-05", "May"),
   ("06-06", "Jun"),
   ("07-07", "Jul"),
   ("08-08", "Aug"),
   ("09-09", "Sep"),
   ("10-10", "Oct"),
   ("11-11", "Nov"),
   ("12-12", "Dec"),
   ("12-02", "DecFeb"),
   ("03-05", "MarMay"),
   ("06-08", "JunAug"),
   ("09-11", "SepNov")]

/-- Embedding of `get_time_filter_name`: Python `dict.get`, i.e. lookup
in the (distinct-keyed) table, `None` when the key is absent. -/
def get_time_filter_name (season : String) : Option String :=
  SEASON_TO_TIME_FILTER.lookup season

/-- Embedding of `filter_by_period` (`src/app/utils/dataset_helpers.py`,
lines 75–116).  The `period` argument is the parsed form of the period
string: `none` for `"all"` (the source returns `da.copy()`, value-equal
to the input), `some (a, b)` for `"a-b"` (the source slices with the year
labels, `da.sel(time=slice(start, end))`, i.e. from the first day of year
`a` through the last day of year `b`). -/
def filter_by_period (s : List (Date × ℚ)) (period : Option (Int × Int)) :
    List (Date × ℚ) :=
  match period with
  | some (a, b) => selSlice Prod.fst s ⟨a, 1, 1⟩ ⟨b, 12, 31⟩
  | none => s

/-- Ordinary-least-squares slope as computed by `np.polyfit(x, y, 1)` on
full-rank input (at least two points with distinct x): the
normal-equation solution `(n·Σxy − Σx·Σy) / (n·Σx² − (Σx)²)`, the unique
least-squares minimiser there.  The rank-deficient case (a single
point) is NOT modelled by this definition: `np.polyfit` then emits a
RankWarning and returns a column-scaled minimum-norm value, while `ℚ`
junk division makes this formula return `0`; every theorem below about
the fitted value therefore assumes at least two valid points — in
`calculate_trend` their x are distinct slice positions, so that
assumption is exactly the full-rank case where this formula is the
program's value. -/
def olsSlope (pts : List (ℚ × ℚ)) : ℚ :=
  let n : ℚ := pts.length
  let sx := (pts.map (fun p => p.1)).sum
  let sy := (pts.map (fun p => p.2)).sum
  let sxy := (pts.map (fun p => p.1 * p.2)).sum
  let sxx := (pts.map (fun p => p.1 * p.1)).sum
  (n * sxy - sx * sy) / (n * sxx - sx * sx)

/-- Embedding of `calculate_trend` (`src/app/services/summary_stats.py`,
lines 17–52).  The yearly series is a list of `(year, value)` pairs in
time order, a NaN value being `none`.  The code slices the series from
`start_year` on (`sel(time=slice(f"{start_year}", None))`), returns
`None` if that slice has fewer than 10 entries (NaNs included), pairs
each remaining value with its 0-based position `x` in the slice
(`np.arange(len(y))`), drops the NaN entries (`mask`), returns `None`
when nothing remains, and otherwise returns the fitted slope times 10
(`olsSlope` is the program's fit only in the full-rank case of at least
two valid points; see its doc comment for the single-point caveat). -/
def calculate_trend (series : List (Int × Option ℚ)) (start_year : Int) :
    Option ℚ :=
  let da_slice := series.filter (fun p => decide (start_year ≤ p.1))
  if da_slice.length < 10 then none
  else
    let pts := da_slice.enum.filterMap
      (fun p => p.2.2.map (fun v => ((p.1 : ℚ), v)))
    if pts.isEmpty then none
    else some (olsSlope pts * 10)

/-- The (index, value) pairs the trend is fitted to: the post-start-year
slice enumerated by 0-based position, keeping the valid (non-missing)
values — the `x[mask]` / `y[mask]` pair of the source.  Identical to
the `pts` local of `calculate_trend`, named so theorems can speak about
it. -/
def trendPoints (series : List (Int × Option ℚ)) (start_year : Int) :
    List (ℚ × ℚ) :=
  (series.filter (fun p => decide (start_year ≤ p.1))).enum.filterMap
    (fun p => p.2.2.map (fun v => ((p.1 : ℚ), v)))

/-- Mean of a list of rationals (spec-side helper). -/
def meanQ (l : List ℚ) : ℚ := l.sum / l.length

/-- The textbook ("spec"-side) least-squares slope, written with centered
sums: `Σ(x−x̄)(y−ȳ) / Σ(x−x̄)²`.  Compared against `olsSlope` (the form
the code computes) in the trend theorem. -/
def centeredSlope (pts : List (ℚ × ℚ)) : ℚ :=
  let xb := meanQ (pts.map (fun p => p.1))
  let yb := meanQ (pts.map (fun p => p.2))
  ((pts.map (fun p => (p.1 - xb) * (p.2 - yb))).sum) /
    ((pts.map (fun p => (p.1 - xb) * (p.1 - xb))).sum)

/-- The slice of `get_ref_stats`'s result that the anomaly block of
`_calculate_variable_stats` reads: the reference-window mean (`none`
inside means the stored value was NaN → `None`).  A `ref_stats = none`
models the empty dict `{}` returned when the reference window is
missing. -/
structure RefStats where
  mean : Option ℚ
deriving DecidableEq, Repr

/-- Embedding of the anomaly block of `_calculate_variable_stats`
(`src/app/services/summary_stats.py`, lines 185–209).  Result: the
`anomalies` and `anomalies_as_perc` entries under the key `"1991_2020"`;
the outer `Option` is key presence (`none` = key absent from the map),
the inner `Option` is the stored value (`none` = Python `None`). -/
def anomaliesBlock (target_val : Option ℚ) (ref_stats : Option RefStats) :
    Option (Option ℚ) × Option (Option ℚ) :=
  match ref_stats with
  | none => (none, none)
  | some rs =>
    match target_val, rs.mean with
    | some t, some r =>
      (some (some (t - r)),
       if r ≠ 0 then some (some ((t - r) / |r| * 100)) else none)
    | _, _ => (some none, some none)

/-- Descending order on rows by value (`sort_values(ascending=False)`). -/
def descByValue (a b : Date × ℚ) : Prop := b.2 ≤ a.2

instance : DecidableRel descByValue := by
  unfold descByValue; infer_instance

instance : IsTotal (Date × ℚ) descByValue :=
  ⟨fun a b => (le_total a.2 b.2).symm⟩

instance : IsTrans (Date × ℚ) descByValue :=
  ⟨fun _ _ _ h h2 => le_trans h2 h⟩

/-- Output record of `get_extreme_values`. -/
structure ExtremeValuesResult where
  date_min : List Date
  value_min : List ℚ
  date_max : List Date
  value_max : List ℚ
deriving DecidableEq, Repr

/-- Embedding of the extraction step of `get_extreme_values`
(`src/app/services/extreme_values.py`, lines 79–91): sort the filtered
rows descending by value, take the first five rows (`df.iloc[0:5]`) and
the last five rows of the same descending order (`df.iloc[-5:]`, i.e.
drop all but the final `min 5 n` rows). -/
def get_extreme_values (rows : List (Date × ℚ)) : ExtremeValuesResult :=
  let sorted := rows.insertionSort descByValue
  let df_maxs := sorted.take 5
  let df_mins := sorted.drop (sorted.length - 5)
  { date_min := df_mins.map (fun p => p.1)
    value_min := df_mins.map (fun p => p.2)
    date_max := df_maxs.map (fun p => p.1)
    value_max := df_maxs.map (fun p => p.2) }

/-- Round-half-to-even to an integer, the rule `np.round` applies: keep
the floor `f` when the fractional part `x − f` is below one half
(spelled `2x − 2f < 1`), go up when above, and on an exact half keep the
even neighbour. -/
def rne (x : ℚ) : Int :=
  let f := ⌊x⌋
  if 2 * x - 2 * f < 1 then f
  else if 1 < 2 * x - 2 * f then f + 1
  else if f % 2 = 0 then f else f + 1

/-- `np.round(x, decimals=1)`: round-half-even at one decimal place. -/
def round1 (x : ℚ) : ℚ := (rne (x * 10) : ℚ) / 10

/-- Minimum of a list (`ndarray.min()` of non-empty data; `0` on `[]`). -/
def listMin (l : List ℚ) : ℚ :=
  match l with
  | [] => 0
  | x :: xs => xs.foldl min x

/-- Maximum of a list (`ndarray.max()` of non-empty data; `0` on `[]`). -/
def listMax (l : List ℚ) : ℚ :=
  match l with
  | [] => 0
  | x :: xs => xs.foldl max x

/-- The shared bin edges of `get_histograms`
(`src/app/services/histograms.py`, lines 111–113):
`np.histogram_bin_edges(combined, bins="auto")` produces `nbins + 1`
equally spaced edges from the combined minimum to the combined maximum
(`nbins` itself comes from the library's automatic bin-count heuristic,
which involves a cube root and is taken here as a parameter), and the
code then rounds every edge to one decimal place. -/
def histEdges (data data_reference : List ℚ) (nbins : Nat) : List ℚ :=
  let combined := data ++ data_reference
  let lo := listMin combined
  let hi := listMax combined
  (List.range (nbins + 1)).map
    (fun (i : Nat) => round1 (lo + (i : ℚ) * (hi - lo) / (nbins : ℚ)))

/-- Bin widths: differences of consecutive edges. -/
def histWidths (edges : List ℚ) : List ℚ :=
  List.zipWith (fun a b => b - a) edges edges.tail

/-- Per-bin counts of `np.histogram(data, bins=edges)`: bin `i` counts
the values with `edges[i] ≤ x < edges[i+1]`, except that the last bin is
closed on the right (`edges[k-1] ≤ x ≤ edges[k]`).  Values outside
`[edges[0], edges[k]]` are not counted at all. -/
def histCounts (data : List ℚ) (edges : List ℚ) : List Nat :=
  (List.range (edges.length - 1)).map (fun i =>
    let lo := edges.getD i 0
    let hi := edges.getD (i + 1) 0
    if i + 2 = edges.length then
      data.countP (fun x => decide (lo ≤ x) && decide (x ≤ hi))
    else
      data.countP (fun x => decide (lo ≤ x) && decide (x < hi)))

/-- `np.histogram(data, bins=edges, density=True)`: each count divided
by its bin width and by the total of the counts that fell into bins
(numpy normalises by `n.sum()`, not by `len(data)`). -/
def histDensity (data : List ℚ) (edges : List ℚ) : List ℚ :=
  let counts := histCounts data edges
  let total : ℚ := (counts.sum : ℚ)
  List.zipWith (fun (c : Nat) (w : ℚ) => (c : ℚ) / w / total) counts
    (histWidths edges)

/-- The integral of a density histogram: `Σ density_i · width_i`. -/
def histIntegral (density widths : List ℚ) : ℚ :=
  (List.zipWith (fun d w => d * w) density widths).sum

/-- Output record of `get_histograms` (the top-3 extreme/date outputs of
the source, which no claim here touches, are not modelled). -/
structure HistogramsResult where
  bins : List ℚ
  value_period : List ℚ
  value_reference : List ℚ
deriving DecidableEq, Repr

/-- Embedding of the histogram computation of `get_histograms`
(`src/app/services/histograms.py`, lines 109–118): one shared edge set
from the concatenation of the two filtered arrays (edges rounded to one
decimal), density histograms of each array against those edges, and bin
centers `0.5·(edges[1:] + edges[:-1])`. -/
def get_histograms (data data_reference : List ℚ) (nbins : Nat) :
    HistogramsResult :=
  let bins := histEdges data data_reference nbins
  let bin_centers :=
    List.zipWith (fun a b => (a + b) / 2) bins bins.tail
  { bins := bin_centers
    value_period := histDensity data bins
    value_reference := histDensity data_reference bins }

/-- Centered 5-point rolling mean with `min_periods=1`
(`rolling(window=5, center=True, min_periods=1).mean()`): position `i`
averages the entries at positions `max(0, i−2) … min(n−1, i+2)`. -/
def rollingMean5 (l : List ℚ) : List ℚ :=
  (List.range l.length).map (fun i =>
    let lo := i - 2
    let hi := min (i + 2) (l.length - 1)
    let window := (l.drop lo).take (hi - lo + 1)
    window.sum / (window.length : ℚ))

/-- Embedding of the circular smoothing of `get_annual_cycle`
(`src/app/services/annual_cycle.py`, lines 99–112), for one of the three
smoothed columns (the code runs the identical computation for
`percentile90`, `median` and `percentile10`): rows are (month-day label,
value), already sorted by label; the code concatenates the last two rows,
the table, and the first two rows (`pd.concat([stats.iloc[-2:], stats,
stats.iloc[:2]])`), applies the centered 5-point rolling mean, trims the
padding (`iloc[2:-2]`), and writes the result back into the column —
pandas raises a length-mismatch `ValueError` (here: `none`) when the
trimmed series and the table differ in length. -/
def smooth_stats (stats : List (String × ℚ)) :
    Option (List (String × ℚ)) :=
  let vals := stats.map (fun p => p.2)
  let extended := vals.drop (vals.length - 2) ++ vals ++ vals.take 2
  let smoothed := ((rollingMean5 extended).drop 2).take
    (extended.length - 4)
  if smoothed.length = stats.length then
    some ((stats.map (fun p => p.1)).zip smoothed)
  else none

/-- A loaded input array as `get_annual_cycle` sees it: the `categorical`
flag is whether `"time_filter"` is among the array's dims, `rows` its
(time, value) data for the requested region. -/
structure InputArray where
  categorical : Bool
  rows : List (Date × ℚ)
deriving DecidableEq, Repr

/-- Embedding of the input validation of `get_annual_cycle`
(`src/app/services/annual_cycle.py`, lines 53–69): more than one dataset
raises `ValueError`; a single dataset whose array carries a
`time_filter` dimension raises `NotImplementedError`.  On success the
selected array's rows are handed to the rest of the computation (the
day-of-year statistics, smoothed by `smooth_stats` above, which no claim
about these guards needs). -/
def get_annual_cycle (datasets : List InputArray) :
    Except String (List (Date × ℚ)) :=
  if datasets.length > 1 then
    Except.error "Multiple datasets not supported for annual cycle calculation"
  else
    match datasets with
    | [] => Except.error "IndexError"
    | da :: _ =>
      if da.categorical then
        Except.error "Annual cycle calculation for indices not possible"
      else
        Except.ok da.rows

/-- One data variable of a dataset: its values and its `units` attr. -/
structure VarData where
  values : List ℚ
  units : String
deriving DecidableEq, Repr

/-- Embedding of `transform_units` (`src/app/utils/transformation.py`,
lines 10–32): for each of the variables named `"sfcWind"` and
`"sfcWind_None"` that is present, multiply its values by 3.6 and set its
`units` attribute to `"km/h"`; every other variable is untouched.  A
dataset is an association list from variable name to variable data. -/
def transform_units (ds : List (String × VarData)) :
    List (String × VarData) :=
  ds.map (fun nv =>
    if nv.1 = "sfcWind" ∨ nv.1 = "sfcWind_None" then
      (nv.1, ⟨nv.2.values.map (fun v => v * (18 / 5 : ℚ)), "km/h"⟩)
    else nv)

/-- Embedding of the loader's per-variable post-processing
(`src/app/load.py`, lines 328–333) for a variable requested at level
`None`: if the raw variable is `sfcWind`, its values are multiplied by
3.6 and its `units` attribute set to `"km/h"` already at load time, and
the variable is then renamed to `{varname}_None` — so every engine
receives `sfcWind_None` in km/h, not in m/s. -/
def load_variable_transform (varname : String) (v : VarData) :
    String × VarData :=
  if varname = "sfcWind" then
    (varname ++ "_None",
      ⟨v.values.map (fun x => x * (18 / 5 : ℚ)), "km/h"⟩)
  else (varname ++ "_None", v)

/-- Yearly series 1940–1949 with two missing (NaN) values: ten entries
from 1940 on, of which only eight are valid. -/
def cexTrendSeries : List (Int × Option ℚ) :=
  [(1940, some 0), (1941, some 1), (1942, some 2), (1943, some 3),
   (1944, some 4), (1945, some 5), (1946, some 6), (1947, some 7),
   (1948, none), (1949, none)]

/-- Yearly series 1940–1949 with all ten values valid. -/
def witTrendSeries : List (Int × Option ℚ) :=
  [(1940, some 0), (1941, some 1), (1942, some 2), (1943, some 3),
   (1944, some 4), (1945, some 5), (1946, some 6), (1947, some 7),
   (1948, some 8), (1949, some 9)]

/-- A small daily time coordinate around the 2023→2024 winter (2024 is a
leap year, so Feb 29 2024 exists). -/
def exDatesDJF : List Date :=
  [⟨2023, 11, 30⟩, ⟨2023, 12, 1⟩, ⟨2023, 12, 15⟩, ⟨2024, 1, 10⟩,
   ⟨2024, 2, 29⟩, ⟨2024, 3, 1⟩]

/-- A small sorted yearly-ish series for the period-filter witness. -/
def exSeries : List (Date × ℚ) :=
  [(⟨1980, 5, 1⟩, 1), (⟨1981, 1, 1⟩, 2), (⟨1995, 6, 15⟩, 3),
   (⟨2010, 12, 31⟩, 4), (⟨2011, 1, 1⟩, 5)]

/-- Period-of-interest data 10.02 and 10.04: both lie above 10.0, the
value the combined maximum 10.04 rounds down to. -/
def cexHistData : List ℚ := [501 / 50, 251 / 25]

/-- Reference-period data 0 and 5 (supplies the combined minimum). -/
def cexHistRef : List ℚ := [0, 5]

/-- Period data for the histogram witness. -/
def witHistData : List ℚ := [1, 2]

/-- Reference data for the histogram witness. -/
def witHistRef : List ℚ := [3, 4]

/-- A one-row day-of-year statistics table. -/
def cexStats : List (String × ℚ) := [("01-01", 1)]

/-- A three-row day-of-year statistics table. -/
def witStats : List (String × ℚ) :=
  [("01-01", 1), ("01-02", 2), ("01-03", 6)]

/-- A two-variable dataset holding a wind variable in m/s. -/
def witDs : List (String × VarData) :=
  [("tas", ⟨[1], "degC"⟩), ("sfcWind", ⟨[5, 10], "m/s"⟩)]

/-! ## Order lemmas for dates -/

theorem Date.le_trans {a b c : Date} (h1 : Date.le a b) (h2 : Date.le b c) :
    Date.le a c := by
  simp only [Date.le] at *
  omega

theorem Date.le_lt_trans {a b c : Date} (h1 : Date.le a b)
    (h2 : Date.lt b c) : Date.lt a c := by
  simp only [Date.le, Date.lt] at *
  omega

theorem Date.not_lt {a b : Date} : ¬ Date.lt a b ↔ Date.le b a := by
  simp only [Date.le, Date.lt]
  omega

/-! ## Slices on a sorted index -/

theorem takeWhile_eq_filter_of_sorted {α : Type} {R : α → α → Prop}
    {p : α → Bool} {l : List α} (hs : l.Pairwise R)
    (hp : ∀ a b, R a b → p b = true → p a = true) :
    l.takeWhile p = l.filter p := by
  induction l with
  | nil => rfl
  | cons x xs ih =>
    rcases List.pairwise_cons.mp hs with ⟨hx, hxs⟩
    by_cases hpx : p x = true
    · simp [List.takeWhile_cons, List.filter_cons, hpx, ih hxs]
    · have hnil : xs.filter p = [] := by
        refine List.filter_eq_nil_iff.mpr ?_
        intro a ha hpa
        exact hpx (hp x a (hx a ha) hpa)
      simp [List.takeWhile_cons, List.filter_cons, hpx, hnil]

theorem dropWhile_eq_filter_of_sorted {α : Type} {R : α → α → Prop}
    {p : α → Bool} {l : List α} (hs : l.Pairwise R)
    (hp : ∀ a b, R a b → p b = true → p a = true) :
    l.dropWhile p = l.filter (fun x => !(p x)) := by
  induction l with
  | nil => rfl
  | cons x xs ih =>
    rcases List.pairwise_cons.mp hs with ⟨hx, hxs⟩
    by_cases hpx : p x = true
    · simp [List.dropWhile_cons, List.filter_cons, hpx, ih hxs]
    · have hself : xs.filter (fun a => !(p a)) = xs := by
        refine List.filter_eq_self.mpr ?_
        intro a ha
        have : p a = false := by
          cases h2 : p a with
          | false => rfl
          | true => exact absurd (hp x a (hx a ha) h2) hpx
        simp [this]
      simp [List.dropWhile_cons, hpx, List.filter_cons, hself]

theorem selSlice_eq_filter {α : Type} (key : α → Date) {l : List α}
    (hs : l.Pairwise (fun a b => Date.le (key a) (key b)))
    (lo hi : Date) :
    selSlice key l lo hi =
      l.filter (fun x =>
        decide (Date.le lo (key x)) && decide (Date.le (key x) hi)) := by
  unfold selSlice
  rw [dropWhile_eq_filter_of_sorted hs
    (fun a b hab hb => by
      simp only [decide_eq_true_eq] at *
      exact Date.le_lt_trans hab hb)]
  rw [takeWhile_eq_filter_of_sorted (hs.filter _)
    (fun a b hab hb => by
      simp only [decide_eq_true_eq] at *
      exact Date.le_trans hab hb)]
  rw [List.filter_filter]
  refine List.filter_congr ?_
  intro x _
  have h1 : (!decide (Date.lt (key x) lo)) = decide (Date.le lo (key x)) := by
    rw [← decide_not]
    exact decide_eq_decide.mpr Date.not_lt
  rw [h1, Bool.and_comm]

theorem mem_yearsFrom {sy ey y : Int} :
    y ∈ yearsFrom sy ey ↔ sy ≤ y ∧ y ≤ ey := by
  unfold yearsFrom
  simp only [List.mem_map, List.mem_range]
  constructor
  · rintro ⟨i, hi, rfl⟩
    omega
  · intro h
    exact ⟨(y - sy).toNat, by omega, by omega⟩

/-- C2.  For every daily series with a sorted time coordinate and every
wrapping season filter (`end_month < start_month`), `sel_time_filter`
returns, for each year `y` of the resolved period taken in ascending
order, exactly the timestamps between the 1st of `start_month` of year
`y − 1` and the last day of `end_month` of year `y` (the last day
computed leap-year-aware for year `y`), and no other timestamps. -/
theorem sel_time_filter_wrapping (dates : List Date) (sy ey : Int)
    (sm em : Nat) (hwrap : em < sm) (hs : dates.Pairwise Date.le) :
    sel_time_filter dates sy ey sm em =
      (yearsFrom sy ey).flatMap (fun y =>
        dates.filter (fun t =>
          decide (Date.le ⟨y - 1, sm, 1⟩ t) &&
          decide (Date.le t ⟨y, em, daysInMonth y em⟩))) := by
  unfold sel_time_filter
  have hbranch : ∀ y : Int,
      (if sm ≤ em then
        selSlice id dates ⟨y, sm, 1⟩ ⟨y, em, daysInMonth y em⟩
      else
        selSlice id dates ⟨y - 1, sm, 1⟩ ⟨y, em, daysInMonth y em⟩) =
      dates.filter (fun t =>
        decide (Date.le ⟨y - 1, sm, 1⟩ t) &&
        decide (Date.le t ⟨y, em, daysInMonth y em⟩)) := by
    intro y
    rw [if_neg (by omega)]
    exact selSlice_eq_filter id hs ⟨y - 1, sm, 1⟩ ⟨y, em, daysInMonth y em⟩
  simp only [hbranch]

/-- Witness for C2 at a concrete series: winter 12-02 around the leap
year 2024 (Feb 29 included, Nov 30 and Mar 1 excluded). -/
theorem sel_time_filter_wrapping_witness :
    sel_time_filter exDatesDJF 2024 2024 12 2 =
      (yearsFrom 2024 2024).flatMap (fun y =>
        exDatesDJF.filter (fun t =>
          decide (Date.le ⟨y - 1, 12, 1⟩ t) &&
          decide (Date.le t ⟨y, 2, daysInMonth y 2⟩))) :=
  sel_time_filter_wrapping exDatesDJF 2024 2024 12 2 (by decide) (by decide)

/-- C9.  `filter_by_period` with `"all"` is the identity on the series
(a value-equal copy), and with an explicit `start-end` period it keeps
exactly the rows whose year lies in the inclusive range, for every
series with a sorted, well-formed time coordinate. -/
theorem filter_by_period_spec (s : List (Date × ℚ)) (a b : Int)
    (hs : s.Pairwise (fun x y => Date.le x.1 y.1))
    (hv : ∀ p ∈ s, p.1.valid) :
    filter_by_period s none = s ∧
    filter_by_period s (some (a, b)) =
      s.filter (fun p =>
        decide (a ≤ p.1.year) && decide (p.1.year ≤ b)) := by
  refine ⟨rfl, ?_⟩
  show selSlice Prod.fst s ⟨a, 1, 1⟩ ⟨b, 12, 31⟩ = _
  rw [selSlice_eq_filter Prod.fst hs]
  refine List.filter_congr ?_
  intro p hp
  rcases hv p hp with ⟨hm1, hm2, hd1, hd2⟩
  have h1 : Date.le ⟨a, 1, 1⟩ p.1 ↔ a ≤ p.1.year := by
    simp only [Date.le]
    omega
  have h2 : Date.le p.1 ⟨b, 12, 31⟩ ↔ p.1.year ≤ b := by
    simp only [Date.le]
    omega
  rw [decide_eq_decide.mpr h1, decide_eq_decide.mpr h2]

/-- Witness for C9 at a concrete series and the period 1981–2010. -/
theorem filter_by_period_spec_witness :
    filter_by_period exSeries none = exSeries ∧
    filter_by_period exSeries (some (1981, 2010)) =
      exSeries.filter (fun p =>
        decide (1981 ≤ p.1.year) && decide (p.1.year ≤ 2010)) :=
  filter_by_period_spec exSeries 1981 2010 (by decide) (by decide)

/-! ## The season table -/

theorem lookup_eq_some_iff {l : List (String × String)}
    (h : (l.map Prod.fst).Nodup) (s v : String) :
    l.lookup s = some v ↔ (s, v) ∈ l := by
  induction l with
  | nil => simp [List.lookup]
  | cons kv t ih =>
    obtain ⟨k, w⟩ := kv
    simp only [List.map_cons, List.nodup_cons] at h
    obtain ⟨hk, ht⟩ := h
    by_cases hsk : s = k
    · subst hsk
      have hbeq : (s == s) = true := by simp
      simp only [List.lookup, hbeq, List.mem_cons]
      constructor
      · rintro h2
        injection h2 with h2
        exact Or.inl (by rw [h2])
      · rintro (h2 | h2)
        · injection h2 with h2a h2b
          rw [h2b]
        · exact absurd (List.mem_map_of_mem Prod.fst h2) hk
    · have hbeq : (s == k) = false := by
        simp [hsk]
      simp only [List.lookup, hbeq, List.mem_cons]
      rw [ih ht]
      constructor
      · exact Or.inr
      · rintro (h2 | h2)
        · exact absurd (congrArg Prod.fst h2) hsk
        · exact h2

/-- Counterexample to C3 as stated: the fixed season table of the source
has 17 entries (one yearly, twelve monthly, four seasonal), not 16. -/
theorem season_table_counterexample :
    SEASON_TO_TIME_FILTER.length = 17 ∧
    SEASON_TO_TIME_FILTER.length ≠ 16 := by decide

/-- C3 (amended to the real table size).  `get_time_filter_name` is a
pure lookup in the fixed 17-entry table: it returns `some v` exactly for
the pairs of the table and `none` for every other string. -/
theorem get_time_filter_name_spec (s v : String) :
    (get_time_filter_name s = some v ↔ (s, v) ∈ SEASON_TO_TIME_FILTER) ∧
    SEASON_TO_TIME_FILTER.length = 17 := by
  exact ⟨lookup_eq_some_iff (by decide) s v, rfl⟩

/-! ## Extreme values -/

/-- C4.  `get_extreme_values` on a filtered series: there is a
descending-by-value rearrangement of the rows from which `value_max` /
`date_max` are the first `min 5 n` entries and `value_min` / `date_min`
are the last `min 5 n` entries of that same descending order (not an
independent ascending sort); both value lists have length `min 5 n`, so
never more than five, and for `n < 10` the two windows overlap. -/
theorem get_extreme_values_spec (rows : List (Date × ℚ)) :
    ∃ sorted : List (Date × ℚ),
      sorted.Perm rows ∧
      sorted.Pairwise descByValue ∧
      (get_extreme_values rows).date_max =
        (sorted.take 5).map (fun p => p.1) ∧
      (get_extreme_values rows).value_max =
        (sorted.take 5).map (fun p => p.2) ∧
      (get_extreme_values rows).date_min =
        (sorted.drop (sorted.length - 5)).map (fun p => p.1) ∧
      (get_extreme_values rows).value_min =
        (sorted.drop (sorted.length - 5)).map (fun p => p.2) ∧
      (get_extreme_values rows).value_max.length = min 5 rows.length ∧
      (get_extreme_values rows).value_min.length = min 5 rows.length := by
  refine ⟨rows.insertionSort descByValue,
    List.perm_insertionSort descByValue rows,
    List.sorted_insertionSort descByValue rows,
    rfl, rfl, rfl, rfl, ?_, ?_⟩
  · simp only [get_extreme_values, List.length_map, List.length_take,
      (List.perm_insertionSort descByValue rows).length_eq]
  · simp only [get_extreme_values, List.length_map, List.length_drop,
      (List.perm_insertionSort descByValue rows).length_eq]
    omega

/-! ## Annual-cycle smoothing -/

/-- Counterexample to C6 as stated: on a one-row day-of-year table the
trimmed smoothed series is empty (`iloc[2:-2]` of three padded rows),
so pandas raises a length-mismatch error instead of returning a
same-length series (modelled as `none`). -/
theorem smooth_stats_counterexample :
    cexStats.length = 1 ∧ smooth_stats cexStats = none := by decide

/-- C6 (amended: tables with exactly one row crash; all others are
preserved).  For every day-of-year statistics table with zero or at
least two rows — in particular the 365/366-row tables of real data —
the circular 5-point smoothing succeeds and returns exactly the same
month-day labels in exactly the same order (hence the same count). -/
theorem smooth_stats_spec (stats : List (String × ℚ))
    (h : stats.length ≠ 1) :
    ∃ out, smooth_stats stats = some out ∧
      out.map (fun p => p.1) = stats.map (fun p => p.1) := by
  match stats, h with
  | [], _ => exact ⟨[], rfl, rfl⟩
  | a :: b :: t, _ =>
    have hlen :
        (((rollingMean5 ((((a :: b :: t).map (fun p => p.2)).drop
              (((a :: b :: t).map (fun p => p.2)).length - 2)) ++
            ((a :: b :: t).map (fun p => p.2)) ++
            (((a :: b :: t).map (fun p => p.2)).take 2))).drop 2).take
          (((((a :: b :: t).map (fun p => p.2)).drop
              (((a :: b :: t).map (fun p => p.2)).length - 2)) ++
            ((a :: b :: t).map (fun p => p.2)) ++
            (((a :: b :: t).map (fun p => p.2)).take 2)).length - 4)).length
        = (a :: b :: t).length := by
      simp only [rollingMean5, List.length_take, List.length_drop,
        List.length_map, List.length_append, List.length_range,
        List.length_cons]
      omega
    simp only [smooth_stats]
    rw [if_pos hlen]
    exact ⟨_, rfl, List.map_fst_zip _ _ (by rw [hlen, List.length_map])⟩

/-- Witness for C6 at a concrete three-row table. -/
theorem smooth_stats_spec_witness :
    ∃ out, smooth_stats witStats = some out ∧
      out.map (fun p => p.1) = witStats.map (fun p => p.1) :=
  smooth_stats_spec witStats (by decide)

/-! ## Annual-cycle input guards -/

/-- C7.  `get_annual_cycle` fails (raising, modelled as `Except.error`)
whenever it receives more than one dataset, and likewise whenever the
single input array is categorical (has a `time_filter` dimension); in
both cases no result is produced. -/
theorem get_annual_cycle_guards (datasets : List InputArray) :
    (datasets.length > 1 →
      get_annual_cycle datasets = Except.error
        "Multiple datasets not supported for annual cycle calculation") ∧
    (∀ d : InputArray, datasets = [d] → d.categorical = true →
      get_annual_cycle datasets = Except.error
        "Annual cycle calculation for indices not possible") := by
  constructor
  · intro h
    unfold get_annual_cycle
    rw [if_pos h]
  · rintro d rfl hcat
    simp [get_annual_cycle, hcat]

/-- Witness for C7: two datasets, and one categorical dataset. -/
theorem get_annual_cycle_guards_witness :
    get_annual_cycle [⟨false, []⟩, ⟨false, []⟩] = Except.error
      "Multiple datasets not supported for annual cycle calculation" ∧
    get_annual_cycle [⟨true, []⟩] = Except.error
      "Annual cycle calculation for indices not possible" :=
  ⟨(get_annual_cycle_guards [⟨false, []⟩, ⟨false, []⟩]).1 (by decide),
   (get_annual_cycle_guards [⟨true, []⟩]).2 ⟨true, []⟩ rfl rfl⟩

/-! ## Summary-stats anomalies -/

/-- Counterexample to C8 as stated: with non-empty reference stats
(mean 5) but an unavailable target value, the code stores the key with
value `None` in `anomalies_as_perc` (`some none`) rather than omitting
it (`none`), contradicting the claim that the percent entry is omitted
whenever either operand is unavailable. -/
theorem anomaliesBlock_counterexample :
    (anomaliesBlock none (some ⟨some 5⟩)).2 = some none ∧
    (anomaliesBlock none (some ⟨some 5⟩)).2 ≠ none := by decide

/-- C8 (amended: when an operand is unavailable the percent entry is
present with a null value; it is omitted only in the `referenceMean = 0`
case).  With non-empty reference stats: if both operands are available
the anomaly entry holds `target − refMean` and, when `refMean ≠ 0`, the
percent entry holds `(target − refMean)/|refMean|·100` (so any stored
percent `p` satisfies `p·|refMean| = (target − refMean)·100`), while for
`refMean = 0` the percent entry is omitted; if either operand is
unavailable both entries are present with null values; with empty
reference stats both maps are empty. -/
theorem anomaliesBlock_spec (target rmean : Option ℚ) :
    (∀ tv rv, target = some tv → rmean = some rv →
      (anomaliesBlock target (some ⟨rmean⟩)).1 = some (some (tv - rv)) ∧
      (rv = 0 → (anomaliesBlock target (some ⟨rmean⟩)).2 = none) ∧
      (rv ≠ 0 →
        (anomaliesBlock target (some ⟨rmean⟩)).2 =
          some (some ((tv - rv) / |rv| * 100)) ∧
        ∀ p, (anomaliesBlock target (some ⟨rmean⟩)).2 = some (some p) →
          p * |rv| = (tv - rv) * 100)) ∧
    ((target = none ∨ rmean = none) →
      (anomaliesBlock target (some ⟨rmean⟩)).1 = some none ∧
      (anomaliesBlock target (some ⟨rmean⟩)).2 = some none) ∧
    anomaliesBlock target none = (none, none) := by
  refine ⟨?_, ?_, rfl⟩
  · rintro tv rv rfl rfl
    refine ⟨rfl, ?_, ?_⟩
    · intro h0
      simp [anomaliesBlock, h0]
    · intro h0
      constructor
      · simp [anomaliesBlock, h0]
      · intro p hp
        simp only [anomaliesBlock, if_pos h0, Option.some_inj] at hp
        have habs : |rv| ≠ 0 := abs_ne_zero.mpr h0
        rw [← hp]
        rw [mul_comm ((tv - rv) / |rv|) 100, mul_assoc,
          div_mul_cancel₀ _ habs]
        ring
  · rintro (rfl | rfl)
    · exact ⟨rfl, rfl⟩
    · cases target with
      | none => exact ⟨rfl, rfl⟩
      | some tv => exact ⟨rfl, rfl⟩

/-- Witness for C8: target 7 against reference mean 5 gives anomaly 2
and percent 40. -/
theorem anomaliesBlock_spec_witness :
    (anomaliesBlock (some 7) (some ⟨some 5⟩)).1 = some (some (7 - 5)) ∧
    (anomaliesBlock (some 7) (some ⟨some 5⟩)).2 =
      some (some ((7 - 5) / |(5 : ℚ)| * 100)) :=
  ⟨((anomaliesBlock_spec (some 7) (some 5)).1 7 5 rfl rfl).1,
   (((anomaliesBlock_spec (some 7) (some 5)).1 7 5 rfl rfl).2.2
     (by norm_num)).1⟩

/-! ## Unit transformation -/

/-- Counterexample to C10's system-level consequence ("all wind-speed
outputs of every engine are in km/h even though the loader supplies
m/s"): the loader itself already converts `sfcWind` to km/h and renames
it `sfcWind_None` (`load.py` 328–333), so no engine receives m/s — and
an engine that then calls `transform_units` multiplies by 3.6 a second
time.  A raw 5 m/s wind reaches the engine as 18 km/h and leaves
`transform_units` as 64.8 = 324/5, which is not the 18 km/h the claim
promises. -/
theorem transform_units_counterexample :
    (load_variable_transform "sfcWind" ⟨[5], "m/s"⟩).2.units = "km/h" ∧
    transform_units [load_variable_transform "sfcWind" ⟨[5], "m/s"⟩] =
      [("sfcWind_None", ⟨[(324 : ℚ) / 5], "km/h"⟩)] ∧
    ((324 : ℚ) / 5) ≠ 5 * (18 / 5) := by
  refine ⟨rfl, ?_, by norm_num⟩
  have h1 : load_variable_transform "sfcWind" ⟨[5], "m/s"⟩ =
      ("sfcWind_None", ⟨[(18 : ℚ)], "km/h"⟩) := by
    have hname : "sfcWind" ++ "_None" = "sfcWind_None" := by decide
    simp only [load_variable_transform, if_pos rfl, hname]
    norm_num
  rw [h1]
  simp only [transform_units, List.map_cons, List.map_nil,
    if_pos (Or.inr rfl)]
  norm_num

/-- C10 (amended: the function-local behaviour is as claimed, but the
loader — not the engines — is where m/s becomes km/h, so engines that
call `transform_units` scale wind a second time).  `transform_units`
keeps every variable name in place (same variables, same order),
multiplies the values of `sfcWind` and `sfcWind_None` by 3.6 = 18/5 and
sets their `units` attribute to `"km/h"`, and leaves every other
variable's entry completely unchanged; composed after the loader's own
conversion, a wind variable's values end up multiplied by 3.6 twice
(12.96 × the stored m/s values). -/
theorem transform_units_spec (ds : List (String × VarData)) :
    ((transform_units ds).map (fun p => p.1) = ds.map (fun p => p.1)) ∧
    (∀ n v, (n, v) ∈ ds →
      ((n ≠ "sfcWind" ∧ n ≠ "sfcWind_None") →
        (n, v) ∈ transform_units ds) ∧
      ((n = "sfcWind" ∨ n = "sfcWind_None") →
        (n, ⟨v.values.map (fun x => x * (18 / 5 : ℚ)), "km/h"⟩)
          ∈ transform_units ds)) ∧
    (∀ v : VarData,
      transform_units [load_variable_transform "sfcWind" v] =
        [("sfcWind_None",
          ⟨v.values.map (fun x => x * (18 / 5 : ℚ) * (18 / 5 : ℚ)),
            "km/h"⟩)]) := by
  refine ⟨?_, ?_, ?_⟩
  · unfold transform_units
    rw [List.map_map]
    refine List.map_congr_left ?_
    intro nv _
    by_cases hn : nv.1 = "sfcWind" ∨ nv.1 = "sfcWind_None"
    · simp [hn]
    · simp [hn]
  · intro n v hmem
    constructor
    · intro hn
      have h2 := List.mem_map_of_mem
        (fun nv : String × VarData =>
          if nv.1 = "sfcWind" ∨ nv.1 = "sfcWind_None" then
            (nv.1, (⟨nv.2.values.map (fun x => x * (18 / 5 : ℚ)),
              "km/h"⟩ : VarData))
          else nv) hmem
      simp only [transform_units]
      simpa [hn.1, hn.2] using h2
    · intro hn
      have h2 := List.mem_map_of_mem
        (fun nv : String × VarData =>
          if nv.1 = "sfcWind" ∨ nv.1 = "sfcWind_None" then
            (nv.1, (⟨nv.2.values.map (fun x => x * (18 / 5 : ℚ)),
              "km/h"⟩ : VarData))
          else nv) hmem
      rcases hn with rfl | rfl
      · simp only [transform_units]
        simpa using h2
      · simp only [transform_units]
        simpa using h2
  · intro v
    have h1 : load_variable_transform "sfcWind" v =
        ("sfcWind_None",
          ⟨v.values.map (fun x => x * (18 / 5 : ℚ)), "km/h"⟩) := by
      have hname : "sfcWind" ++ "_None" = "sfcWind_None" := by decide
      simp [load_variable_transform, hname]
    rw [h1]
    simp only [transform_units, List.map_cons, List.map_nil,
      if_pos (Or.inr rfl), List.map_map]
    rfl

/-- Witness for C10 at a concrete two-variable dataset: the non-wind
variable is untouched, the wind variable is scaled, and composing with
the loader's own conversion doubles the scaling. -/
theorem transform_units_spec_witness :
    ("tas", (⟨[1], "degC"⟩ : VarData)) ∈ transform_units witDs ∧
    ("sfcWind", (⟨[5 * (18 / 5 : ℚ), 10 * (18 / 5 : ℚ)], "km/h"⟩ :
      VarData)) ∈ transform_units witDs ∧
    transform_units [load_variable_transform "sfcWind" ⟨[5], "m/s"⟩] =
      [("sfcWind_None",
        ⟨[5 * (18 / 5 : ℚ) * (18 / 5 : ℚ)], "km/h"⟩)] := by
  refine ⟨?_, ?_, ?_⟩
  · exact ((transform_units_spec witDs).2.1 "tas" ⟨[1], "degC"⟩
      (by decide)).1 (by decide)
  · have := ((transform_units_spec witDs).2.1 "sfcWind" ⟨[5, 10], "m/s"⟩
      (by decide)).2 (Or.inl rfl)
    simpa using this
  · exact (transform_units_spec []).2.2 ⟨[5], "m/s"⟩

/-! ## Histogram density integral -/

theorem histWidths_pos {edges : List ℚ}
    (h : edges.Chain' (fun a b => a < b)) :
    ∀ w ∈ histWidths edges, 0 < w := by
  induction edges with
  | nil =>
    intro w hw
    simp [histWidths] at hw
  | cons a t ih =>
    cases t with
    | nil =>
      intro w hw
      simp [histWidths] at hw
    | cons b t2 =>
      intro w hw
      rcases List.chain'_cons.mp h with ⟨hab, hbt⟩
      have hcons : histWidths (a :: b :: t2) =
          (b - a) :: histWidths (b :: t2) := by
        simp [histWidths]
      rw [hcons] at hw
      rcases List.mem_cons.mp hw with rfl | hmem
      · linarith
      · exact ih hbt w hmem

theorem zip_density_sum (counts : List ℕ) (ws : List ℚ) (T : ℚ)
    (hlen : counts.length = ws.length) (hw : ∀ w ∈ ws, w ≠ 0)
    (hT : T ≠ 0) :
    (List.zipWith (fun d w => d * w)
      (List.zipWith (fun (c : Nat) (w : ℚ) => (c : ℚ) / w / T) counts ws)
        ws).sum
      = (counts.sum : ℚ) / T := by
  induction counts generalizing ws with
  | nil =>
    cases ws with
    | nil => simp
    | cons w wst => simp at hlen
  | cons c cs ih =>
    cases ws with
    | nil => simp at hlen
    | cons w wst =>
      simp only [List.zipWith_cons_cons, List.sum_cons]
      rw [ih wst (by simpa using hlen)
        (fun x hx => hw x (List.mem_cons_of_mem w hx))]
      have hw0 : w ≠ 0 := hw w (List.mem_cons_self w wst)
      push_cast
      field_simp
      ring

theorem histDensity_integrates (data edges : List ℚ)
    (hw : ∀ w ∈ histWidths edges, w ≠ 0)
    (hT : (histCounts data edges).sum ≠ 0) :
    histIntegral (histDensity data edges) (histWidths edges) = 1 := by
  have hlen : (histCounts data edges).length =
      (histWidths edges).length := by
    simp only [histCounts, histWidths, List.length_map, List.length_range,
      List.length_zipWith, List.length_tail]
    omega
  have hTQ : ((histCounts data edges).sum : ℚ) ≠ 0 :=
    Nat.cast_ne_zero.mpr hT
  unfold histIntegral histDensity
  rw [zip_density_sum _ _ _ hlen hw hTQ]
  exact div_self hTQ

/-- Counterexample to C5 as stated: with the non-empty finite inputs
`[10.02, 10.04]` (period) and `[0, 5]` (reference) the combined maximum
10.04 rounds down to 10.0, so every edge of the rounded shared bin set
lies at or below 10.0 and the whole period array falls outside the bins:
its density histogram is all zeros and integrates to 0, not 1 (far
beyond floating-point tolerance).  `nbins = 3` is the count numpy's
`bins="auto"` rule yields for this input, but the failure is independent
of the bin count: every edge is at most `round1 10.04 = 10.0 < 10.02`
for any `nbins`. -/
theorem get_histograms_counterexample :
    cexHistData ≠ [] ∧ cexHistRef ≠ [] ∧
    histIntegral (get_histograms cexHistData cexHistRef 3).value_period
      (histWidths (histEdges cexHistData cexHistRef 3)) = 0 ∧
    histIntegral (get_histograms cexHistData cexHistRef 3).value_period
      (histWidths (histEdges cexHistData cexHistRef 3)) ≠ 1 := by
  have hedges : histEdges cexHistData cexHistRef 3 =
      [0, 33 / 10, 67 / 10, 10] := by
    norm_num [histEdges, cexHistData, cexHistRef, listMin, listMax,
      round1, rne, List.range_succ, min_def, max_def]
  have hcounts : histCounts cexHistData [0, 33 / 10, 67 / 10, 10] =
      [0, 0, 0] := by
    norm_num [histCounts, cexHistData, List.range_succ, List.countP_cons,
      List.countP_nil]
  have hvp : (get_histograms cexHistData cexHistRef 3).value_period =
      histDensity cexHistData (histEdges cexHistData cexHistRef 3) := rfl
  have hzero :
      histIntegral (get_histograms cexHistData cexHistRef 3).value_period
        (histWidths (histEdges cexHistData cexHistRef 3)) = 0 := by
    rw [hvp, hedges]
    simp only [histDensity, hcounts]
    norm_num [histIntegral, histWidths]
  refine ⟨by decide, by decide, hzero, ?_⟩
  rw [hzero]
  norm_num

/-- C5 (amended: the integral is 1 only when the rounded edges are still
strictly increasing and at least one value of the period lands inside
them; rounding may push a period entirely outside its bins, see the
counterexample).  Under those provisos both density arrays integrate to
exactly 1 over the shared bins, and the returned `bins` list holds the
midpoint of each consecutive pair of rounded edges. -/
theorem get_histograms_density_spec (data data_reference : List ℚ)
    (nbins : ℕ)
    (hchain : (histEdges data data_reference nbins).Chain'
      (fun a b => a < b))
    (hT1 : (histCounts data (histEdges data data_reference nbins)).sum ≠ 0)
    (hT2 : (histCounts data_reference
      (histEdges data data_reference nbins)).sum ≠ 0) :
    histIntegral (get_histograms data data_reference nbins).value_period
        (histWidths (histEdges data data_reference nbins)) = 1 ∧
    histIntegral (get_histograms data data_reference nbins).value_reference
        (histWidths (histEdges data data_reference nbins)) = 1 ∧
    (get_histograms data data_reference nbins).bins =
      List.zipWith (fun a b => (a + b) / 2)
        (histEdges data data_reference nbins)
        (histEdges data data_reference nbins).tail := by
  have hw : ∀ w ∈ histWidths (histEdges data data_reference nbins),
      w ≠ 0 :=
    fun w hw2 => (histWidths_pos hchain w hw2).ne'
  exact ⟨histDensity_integrates data _ hw hT1,
    histDensity_integrates data_reference _ hw hT2, rfl⟩

/-- Witness for C5 at `[1,2]` vs `[3,4]` with three bins: edges 1,2,3,4,
both integrals 1. -/
theorem get_histograms_density_spec_witness :
    histIntegral (get_histograms witHistData witHistRef 3).value_period
        (histWidths (histEdges witHistData witHistRef 3)) = 1 ∧
    histIntegral (get_histograms witHistData witHistRef 3).value_reference
        (histWidths (histEdges witHistData witHistRef 3)) = 1 ∧
    (get_histograms witHistData witHistRef 3).bins =
      List.zipWith (fun a b => (a + b) / 2)
        (histEdges witHistData witHistRef 3)
        (histEdges witHistData witHistRef 3).tail :=
  get_histograms_density_spec witHistData witHistRef 3
    (by
      have hedges : histEdges witHistData witHistRef 3 = [1, 2, 3, 4] := by
        norm_num [histEdges, witHistData, witHistRef, listMin, listMax,
          round1, rne, List.range_succ, min_def, max_def]
      rw [hedges]
      norm_num [List.chain'_cons])
    (by
      have hedges : histEdges witHistData witHistRef 3 = [1, 2, 3, 4] := by
        norm_num [histEdges, witHistData, witHistRef, listMin, listMax,
          round1, rne, List.range_succ, min_def, max_def]
      rw [hedges]
      norm_num [histCounts, witHistData, List.range_succ, List.countP_cons,
        List.countP_nil])
    (by
      have hedges : histEdges witHistData witHistRef 3 = [1, 2, 3, 4] := by
        norm_num [histEdges, witHistData, witHistRef, listMin, listMax,
          round1, rne, List.range_succ, min_def, max_def]
      rw [hedges]
      norm_num [histCounts, witHistRef, List.range_succ, List.countP_cons,
        List.countP_nil])

/-! ## Linear trend -/

theorem sum_map_sub_mul (pts : List (ℚ × ℚ)) (c d : ℚ) :
    (pts.map (fun p => (p.1 - c) * (p.2 - d))).sum =
      (pts.map (fun p => p.1 * p.2)).sum
        - c * (pts.map (fun p => p.2)).sum
        - d * (pts.map (fun p => p.1)).sum
        + (pts.length : ℚ) * (c * d) := by
  induction pts with
  | nil => simp
  | cons x xs ih =>
    simp only [List.map_cons, List.sum_cons, List.length_cons, ih]
    push_cast
    ring

theorem sum_map_sub_sq (pts : List (ℚ × ℚ)) (c : ℚ) :
    (pts.map (fun p => (p.1 - c) * (p.1 - c))).sum =
      (pts.map (fun p => p.1 * p.1)).sum
        - 2 * c * (pts.map (fun p => p.1)).sum
        + (pts.length : ℚ) * (c * c) := by
  induction pts with
  | nil => simp
  | cons x xs ih =>
    simp only [List.map_cons, List.sum_cons, List.length_cons, ih]
    push_cast
    ring

theorem centeredSlope_eq_olsSlope (pts : List (ℚ × ℚ)) (h : pts ≠ []) :
    centeredSlope pts = olsSlope pts := by
  have h0 : pts.length ≠ 0 := fun hc => h (List.length_eq_zero.mp hc)
  have hN : ((pts.length : ℕ) : ℚ) ≠ 0 := Nat.cast_ne_zero.mpr h0
  simp only [centeredSlope, meanQ, olsSlope, List.length_map]
  rw [sum_map_sub_mul, sum_map_sub_sq]
  set N : ℚ := ((pts.length : ℕ) : ℚ) with hNdef
  set S1 := (pts.map (fun p => p.1)).sum with hS1
  set S2 := (pts.map (fun p => p.2)).sum with hS2
  set S12 := (pts.map (fun p => p.1 * p.2)).sum with hS12
  set S11 := (pts.map (fun p => p.1 * p.1)).sum with hS11
  have hnum : S12 - S1 / N * S2 - S2 / N * S1 + N * (S1 / N * (S2 / N))
      = (N * S12 - S1 * S2) / N := by
    field_simp
    ring
  have hden : S11 - 2 * (S1 / N) * S1 + N * (S1 / N * (S1 / N))
      = (N * S11 - S1 * S1) / N := by
    field_simp
    ring
  rw [hnum, hden]
  rcases eq_or_ne (N * S11 - S1 * S1) 0 with hD | hD
  · rw [hD]
    simp
  · field_simp

theorem trend_pts_nil_iff (l : List (Int × Option ℚ)) :
    ∀ n : ℕ, ((l.enumFrom n).filterMap
      (fun p => p.2.2.map (fun v => ((p.1 : ℚ), v))) = [] ↔
      ∀ p ∈ l, p.2 = none) := by
  induction l with
  | nil =>
    intro n
    simp
  | cons x xs ih =>
    intro n
    rw [List.enumFrom_cons, List.filterMap_cons]
    cases hx : x.2 with
    | none =>
      simp only [Option.map_none']
      rw [ih (n + 1)]
      constructor
      · intro hall p hp
        rcases List.mem_cons.mp hp with rfl | hp2
        · exact hx
        · exact hall p hp2
      · intro hall p hp
        exact hall p (List.mem_cons_of_mem x hp)
    | some v =>
      simp only [Option.map_some']
      refine iff_of_false (by simp) ?_
      intro hall
      have h2 := hall x (List.mem_cons_self x xs)
      rw [h2] at hx
      exact Option.noConfusion hx

theorem trend_pts_nil_iff_enum (l : List (Int × Option ℚ)) :
    (l.enum.filterMap
      (fun p => p.2.2.map (fun v => ((p.1 : ℚ), v))) = []) ↔
    ∀ p ∈ l, p.2 = none := by
  rw [List.enum_eq_enumFrom]
  exact trend_pts_nil_iff l 0

theorem trend_pts_fst_ge (l : List (Int × Option ℚ)) :
    ∀ n : ℕ, ∀ q ∈ (l.enumFrom n).filterMap
      (fun p => p.2.2.map (fun v => ((p.1 : ℚ), v))), (n : ℚ) ≤ q.1 := by
  induction l with
  | nil =>
    intro n q hq
    simp at hq
  | cons x xs ih =>
    obtain ⟨yr, val⟩ := x
    intro n q hq
    rw [List.enumFrom_cons, List.filterMap_cons] at hq
    have hcast : ((n : ℚ)) ≤ ((n + 1 : ℕ) : ℚ) := by
      push_cast
      linarith
    cases val with
    | none =>
      simp only [Option.map_none'] at hq
      exact le_trans hcast (ih (n + 1) q hq)
    | some v =>
      simp only [Option.map_some'] at hq
      rcases List.mem_cons.mp hq with rfl | hq2
      · exact le_refl _
      · exact le_trans hcast (ih (n + 1) q hq2)

theorem trend_pts_pairwise (l : List (Int × Option ℚ)) :
    ∀ n : ℕ, ((l.enumFrom n).filterMap
      (fun p => p.2.2.map (fun v => ((p.1 : ℚ), v)))).Pairwise
        (fun a b => a.1 < b.1) := by
  induction l with
  | nil =>
    intro n
    simp
  | cons x xs ih =>
    obtain ⟨yr, val⟩ := x
    intro n
    rw [List.enumFrom_cons, List.filterMap_cons]
    cases val with
    | none =>
      simp only [Option.map_none']
      exact ih (n + 1)
    | some v =>
      simp only [Option.map_some']
      refine List.pairwise_cons.mpr ⟨?_, ih (n + 1)⟩
      intro q hq
      have hle := trend_pts_fst_ge xs (n + 1) q hq
      have hcast : ((n : ℚ)) < ((n + 1 : ℕ) : ℚ) := by
        push_cast
        linarith
      exact lt_of_lt_of_le hcast hle

theorem trend_pts_pairwise_enum (series : List (Int × Option ℚ)) :
    (trendPoints series 1940).Pairwise (fun a b => a.1 < b.1) := by
  unfold trendPoints
  rw [List.enum_eq_enumFrom]
  exact trend_pts_pairwise _ 0

theorem sum_sq_pos (pts : List (ℚ × ℚ)) (c : ℚ)
    (hp : pts.Pairwise (fun a b => a.1 < b.1)) (h2 : 2 ≤ pts.length) :
    0 < (pts.map (fun p => (p.1 - c) * (p.1 - c))).sum := by
  match pts, h2 with
  | a :: b :: rest, _ =>
    have hab : a.1 < b.1 :=
      (List.pairwise_cons.mp hp).1 b (List.mem_cons_self b rest)
    have hrest : 0 ≤ (rest.map (fun p => (p.1 - c) * (p.1 - c))).sum := by
      refine List.sum_nonneg ?_
      intro q hq
      rcases List.mem_map.mp hq with ⟨p, _, rfl⟩
      exact mul_self_nonneg _
    simp only [List.map_cons, List.sum_cons]
    nlinarith [mul_pos (sub_pos.mpr hab) (sub_pos.mpr hab),
      sq_nonneg (a.1 + b.1 - 2 * c), hrest]

/-- Counterexample to C1 as stated: a series with ten points from 1940
on, only eight of which are valid (non-missing).  Fewer than 10 valid
points exist, yet the code returns a trend (slope 1 per index step,
i.e. 10 per decade) because its `len < 10` test runs before NaNs are
dropped. -/
theorem calculate_trend_counterexample :
    cexTrendSeries.countP
      (fun p => decide (1940 ≤ p.1) && p.2.isSome) = 8 ∧
    (8 : ℕ) < 10 ∧
    calculate_trend cexTrendSeries 1940 = some 10 ∧
    calculate_trend cexTrendSeries 1940 ≠ none := by
  have h : calculate_trend cexTrendSeries 1940 = some 10 := by
    norm_num [calculate_trend, cexTrendSeries, olsSlope, List.enum,
      List.enumFrom, List.filterMap_cons]
  refine ⟨by decide, by norm_num, h, ?_⟩
  rw [h]
  simp

/-- C1 (amended: the 10-point threshold counts all points of the
post-1940 slice, missing values included; there is a second null case
when every sliced value is missing; and the fitted-value clause holds
for the full-rank case of at least two valid points — with a single
valid point `np.polyfit` returns a column-scaled minimum-norm value
under a RankWarning, which is outside this model).  `calculate_trend`
from start year 1940 returns null exactly when the slice from 1940 on
has fewer than 10 points (valid or not) or consists only of missing
values; whenever at least two valid points exist it returns the
ordinary-least-squares slope — equal to the textbook centered form
Σ(x−x̄)(y−ȳ)/Σ(x−x̄)² — of value against the 0-based index of the slice
over its valid points, multiplied by 10 for change per decade; and with
at least two valid points the centered denominator Σ(x−x̄)² is strictly
positive (the x are distinct slice positions), i.e. that hypothesis is
exactly the full-rank regime where the program computes this unique
least-squares solution. -/
theorem calculate_trend_spec (series : List (Int × Option ℚ)) :
    (calculate_trend series 1940 = none ↔
      (series.filter (fun p => decide (1940 ≤ p.1))).length < 10 ∨
      ∀ p ∈ series.filter (fun p => decide (1940 ≤ p.1)), p.2 = none) ∧
    (10 ≤ (series.filter (fun p => decide (1940 ≤ p.1))).length →
      2 ≤ (trendPoints series 1940).length →
      calculate_trend series 1940 =
        some (centeredSlope (trendPoints series 1940) * 10)) ∧
    (2 ≤ (trendPoints series 1940).length →
      0 < ((trendPoints series 1940).map
        (fun p =>
          (p.1 - meanQ ((trendPoints series 1940).map (fun p => p.1))) *
          (p.1 - meanQ ((trendPoints series 1940).map (fun p => p.1))))).sum)
    := by
  refine ⟨?_, ?_, ?_⟩
  · by_cases hlen :
        (series.filter (fun p => decide (1940 ≤ p.1))).length < 10
    · have hval : calculate_trend series 1940 = none := by
        simp only [calculate_trend, if_pos hlen]
      exact iff_of_true hval (Or.inl hlen)
    · by_cases hnil :
          (series.filter (fun p => decide (1940 ≤ p.1))).enum.filterMap
            (fun p => p.2.2.map (fun v => ((p.1 : ℚ), v))) = []
      · have hval : calculate_trend series 1940 = none := by
          simp only [calculate_trend, if_neg hlen]
          rw [if_pos (by rw [List.isEmpty_iff]; exact hnil)]
        exact iff_of_true hval
          (Or.inr ((trend_pts_nil_iff_enum _).mp hnil))
      · have hval : calculate_trend series 1940 ≠ none := by
          simp only [calculate_trend, if_neg hlen]
          rw [if_neg (by rw [List.isEmpty_iff]; exact hnil)]
          simp
        refine iff_of_false hval ?_
        rintro (h | h)
        · exact hlen h
        · exact hnil ((trend_pts_nil_iff_enum _).mpr h)
  · intro h10 h2
    have hne : trendPoints series 1940 ≠ [] := by
      intro hc
      rw [hc] at h2
      simp at h2
    have hne2 : (series.filter (fun p => decide (1940 ≤ p.1))).enum.filterMap
        (fun p => p.2.2.map (fun v => ((p.1 : ℚ), v))) ≠ [] := hne
    simp only [calculate_trend]
    rw [if_neg (by omega), if_neg (by rw [List.isEmpty_iff]; exact hne2)]
    rw [centeredSlope_eq_olsSlope _ hne]
    rfl
  · intro h2
    exact sum_sq_pos _ _ (trend_pts_pairwise_enum series) h2

/-- Witness for C1 at a fully valid ten-point series 1940–1949 with
values 0…9 (ten valid points, so comfortably full-rank). -/
theorem calculate_trend_spec_witness :
    calculate_trend witTrendSeries 1940 =
      some (centeredSlope (trendPoints witTrendSeries 1940) * 10) :=
  (calculate_trend_spec witTrendSeries).2.1 (by decide) (by decide)

end RSOTC
